import Mathlib

/-!
# revman-cli: the command pipeline of `app.js`

A shallow embedding of the `async()` chain of `app.js`: the sanity checks, the
file read, the parse, the validity report, the three render steps and the end
handler.  The collaborators that `app.js` only calls (the file system, the
`revman` parser, `revman-replicant`, `chalk`, `util.inspect`, `JSON.stringify`,
`process.stdout.write`) are parameters of the run, gathered in `Env`.

A run is recorded as the list of the calls it makes (`Event`) and the way the
process ends (`Status`).  The text that a `console.log` call prints is given
separately by `format`, the model of `util.format` of Node for string
arguments, and `stdout` collects the printed text of a trace.
-/

namespace RevmanCli

/-! ## Data model -/

/-- A study node: only `studyId` is read by `app.js`. -/
structure Study where
  studyId : String
deriving DecidableEq, Repr

/-- A subgroup node.  `study` is `none` when the property is absent
(`undefined`), which line 78 of `app.js` tests for. -/
structure Subgroup where
  no : Nat
  name : String
  study : Option (List Study)
deriving DecidableEq, Repr

/-- An outcome node.  `study` and `subgroup` are `none` when the property is
absent; lines 73, 74 and 84 of `app.js` test them for truthiness, and an array
(even an empty one) is truthy. -/
structure Outcome where
  name : String
  study : Option (List Study)
  subgroup : Option (List Subgroup)
deriving DecidableEq, Repr

/-- A comparison node. -/
structure Comparison where
  name : String
  outcome : List Outcome
deriving DecidableEq, Repr

/-- The `analysesAndData` member of the parsed document. -/
structure AnalysesAndData where
  comparison : List Comparison
deriving DecidableEq, Repr

/-- The parsed document `this.revman`, as far as `app.js` reads it. -/
structure Revman where
  analysesAndData : AnalysesAndData
deriving DecidableEq, Repr

/-- The `program` object that `commander` builds from `process.argv`. -/
structure Program where
  args : List String
  json : Bool
  pretty : Bool
  replicant : Bool
  grammar : String
  tree : Bool
  showStudies : Bool
  verify : Bool
  verbose : Bool
  color : Bool
deriving DecidableEq, Repr

/-- An error value handed to `next(err)`: `text` is what `err.toString()`
returns in the end handler.  Every such value is truthy. -/
structure JsError where
  text : String
deriving DecidableEq, Repr

/-- A JavaScript exception raised while a step runs. -/
inductive JsException where
  | typeError
deriving DecidableEq, Repr

/-- The three render steps of the chain. -/
inductive Renderer where
  | tree
  | replicant
  | json
deriving DecidableEq, Repr

/-- What a callback of a collaborator receives: an error or a value. -/
inductive Callback (α : Type) where
  | err (e : JsError)
  | value (a : α)
deriving DecidableEq, Repr

/-- The styling functions of `chalk` that `app.js` uses. -/
structure Chalk where
  green : String → String
  red : String → String
  grey : String → String
  boldBlue : String → String

/-- The collaborators of one run. -/
structure Env where
  chalk : Chalk
  readFile : String → Callback String
  parse : String → Bool → Bool → Callback (Revman × List String)
  generate : Revman → String → Callback String
  inspect : Revman → String
  stringify : Revman → String
  write : String → Option JsError

/-- The effects of a run, in the order they happen.  `render r` records that
control passed the flag guard of render step `r` (lines 65, 97, 110); the other
events are the calls `app.js` makes. -/
inductive Event where
  | readFile (path : String)
  | parse (text : String) (debugOutcomes removeEmptyOutcomes : Bool)
  | render (r : Renderer)
  | log (args : List String)
  | generate (revman : Revman) (grammar : String)
  | write (data : String)
  | exit (code : Nat)
deriving DecidableEq, Repr

/-- How a step of the chain ends: `ok` is `next()` or `next(null, a)`, `fail`
is `next(err)` with a truthy `err`, `thrown` is an exception that leaves the
step (no `try` exists in `app.js`). -/
inductive Res (α : Type) where
  | ok (a : α)
  | fail (err : JsError)
  | thrown (e : JsException)
deriving DecidableEq, Repr

/-- A computation of the chain: the events it caused and how it ended. -/
structure Eff (α : Type) where
  trace : List Event
  res : Res α
deriving DecidableEq, Repr

namespace Eff

/-- A computation ending normally with `a` and no event. -/
def pure {α : Type} (a : α) : Eff α := ⟨[], Res.ok a⟩

/-- A single event, ending normally. -/
def emit (e : Event) : Eff Unit := ⟨[e], Res.ok ()⟩

/-- The step calls `next(err)`. -/
def fail {α : Type} (err : JsError) : Eff α := ⟨[], Res.fail err⟩

/-- The step raises an exception. -/
def throw {α : Type} (e : JsException) : Eff α := ⟨[], Res.thrown e⟩

/-- Sequencing: the second computation runs only when the first ended
normally; a failure or an exception skips everything after it. -/
def bind {α β : Type} (m : Eff α) (f : α → Eff β) : Eff β :=
  match m.res with
  | Res.ok a => ⟨m.trace ++ (f a).trace, (f a).res⟩
  | Res.fail err => ⟨m.trace, Res.fail err⟩
  | Res.thrown e => ⟨m.trace, Res.thrown e⟩

end Eff

/-- The call `console.log(a, b, ...)`. -/
def consoleLog (args : List String) : Eff Unit := Eff.emit (Event.log args)

/-- The text `chalk` styles when a style function gets several arguments: the
arguments separated by one space. -/
def joinArgs (args : List String) : String := " ".intercalate args

/-- The substitution `util.format` of Node makes for the character after a
percent sign: `%s` stands for the next argument as it is; for any other
character `spec` tells what the runtime substitutes for the next argument, and
is `none` when the runtime does not know the specifier. -/
def specifier (spec : Char → Option (String → String)) (c : Char) : Option (String → String) :=
  if c = 's' then some id else spec c

/-- The scan of the format string by `util.format`: `%%` gives a percent sign,
a known specifier consumes the next argument when one is left, and everything
else is copied.  The result is the text and the arguments not consumed. -/
def formatGo (spec : Char → Option (String → String)) :
    List Char → List String → List Char × List String
  | [], args => ([], args)
  | ch :: rest, args =>
    if ch = '%' then
      match rest with
      | [] => (['%'], args)
      | c :: cs =>
        if c = '%' then ('%' :: (formatGo spec cs args).1, (formatGo spec cs args).2)
        else
          match specifier spec c, args with
          | some g, a :: as =>
            ((g a).data ++ (formatGo spec cs as).1, (formatGo spec cs as).2)
          | _, _ => ('%' :: c :: (formatGo spec cs args).1, (formatGo spec cs args).2)
    else (ch :: (formatGo spec rest args).1, (formatGo spec rest args).2)

/-- The text `console.log` prints for string arguments, as `util.format` of
Node builds it: a single argument is printed as it is; with more arguments the
first one is a format string, and the arguments it does not consume follow,
each after one space. -/
def format (spec : Char → Option (String → String)) : List String → String
  | [] => ""
  | [f] => f
  | f :: a :: args =>
    (formatGo spec f.data (a :: args)).2.foldl (fun str x => str ++ " " ++ x)
      (String.mk (formatGo spec f.data (a :: args)).1)

/-- `Array.prototype.forEach`: the callback receives each element and its
0-based index, in order. -/
def forEachFrom {α : Type} (f : α → Nat → Eff Unit) : List α → Nat → Eff Unit
  | [], _ => Eff.pure ()
  | x :: xs, i => Eff.bind (f x i) (fun _ => forEachFrom f xs (i + 1))

/-- `xs.forEach(f)`. -/
def forEach {α : Type} (xs : List α) (f : α → Nat → Eff Unit) : Eff Unit :=
  forEachFrom f xs 0

/-- `_.padStart(string, length, chars)` of lodash for a one-character `chars`:
the string is padded on the left up to `length`, and returned unchanged when it
is already that long. -/
def padStart (string : String) (length : Nat) (chars : Char) : String :=
  if string.length < length then
    String.mk (List.replicate (length - string.length) chars) ++ string
  else string

/-- `program.args[0]`; the sanity checks leave exactly one argument. -/
def arg0 (p : Program) : String := p.args.headD "undefined"

/-! ## The steps of the chain -/

/-- Lines 27-31: the sanity checks. -/
def sanityChecks (p : Program) : Eff Unit :=
  if p.args.length != 1 then
    Eff.fail ⟨"RevMan-Replicant needs exactly one RevMan file to work with"⟩
  else if !p.tree && !p.replicant && !p.json && !p.verify then
    Eff.fail ⟨"Specify at least --tree, --replicant or --json"⟩
  else Eff.pure ()

/-- Lines 34-36: `fs.readFile(program.args[0], ..., next)`. -/
def readStep (env : Env) (p : Program) : Eff String :=
  Eff.bind (Eff.emit (Event.readFile (arg0 p))) fun _ =>
  match env.readFile (arg0 p) with
  | Callback.err e => Eff.fail e
  | Callback.value buffer => Eff.pure buffer

/-- Lines 37-47: `revman.parse`; the callback stores the warnings and passes
the document on. -/
def parseStep (env : Env) (p : Program) (buffer : String) : Eff (Revman × List String) :=
  Eff.bind (Eff.emit (Event.parse buffer (p.verbose || p.verify) false)) fun _ =>
  match env.parse buffer (p.verbose || p.verify) false with
  | Callback.err e => Eff.fail e
  | Callback.value r => Eff.pure r

/-- Lines 50-61: the validity report. -/
def reportStep (env : Env) (p : Program) (warnings : List String) : Eff Unit :=
  if (p.verify || p.verbose) && warnings.length != 0 then
    Eff.bind (consoleLog [arg0 p, "-", env.chalk.green "RevMan file is valid",
      "(" ++ env.chalk.red (toString warnings.length ++ " warnings") ++ "):"]) fun _ =>
    forEach warnings fun warning _ => consoleLog ["\t-", warning]
  else if p.verify || p.verbose then
    consoleLog [arg0 p, "-", env.chalk.green "RevMan file is valid"]
  else Eff.pure ()

/-- The label of line 72: `(comparisonIndex+1) + '.' + _.padStart(outcomeIndex+1, 2, '0')`. -/
def outcomePfx (comparisonIndex outcomeIndex : Nat) : String :=
  toString (comparisonIndex + 1) ++ "." ++ padStart (toString (outcomeIndex + 1)) 2 '0'

/-- The last argument of the `console.log` of line 73:
`outcome.study ? '(' + outcome.study.length + ' studies)' : ''`. -/
def outcomeStudyCount (outcome : Outcome) : String :=
  match outcome.study with
  | some study => "(" ++ toString study.length ++ " studies)"
  | none => ""

/-- The arguments of the `console.log` of line 73. -/
def outcomeArgs (c : Chalk) (pfx : String) (outcome : Outcome) : List String :=
  ["  -", c.grey pfx, outcome.name, c.grey (outcomeStudyCount outcome)]

/-- Lines 79-81 and 85-87: one line per study under `pfx`, each indented by
`dash`. -/
def studyLoop (c : Chalk) (dash pfx : String) (study : List Study) : Eff Unit :=
  forEach study fun s studyIndex =>
    consoleLog [dash, c.grey (pfx ++ "." ++ padStart (toString (studyIndex + 1)) 2 '0'), s.studyId]

/-- Lines 75-83: the callback of `outcome.subgroup.forEach`.  Reading
`subgroup.study.length` on line 77 raises a `TypeError` when `subgroup.study`
is absent, before `console.log` is called. -/
def subgroupBody (c : Chalk) (p : Program) (pfx : String) (subgroup : Subgroup) : Eff Unit :=
  let subgroupPfx := pfx ++ "." ++ padStart (toString subgroup.no) 2 '0'
  Eff.bind (match subgroup.study with
    | some study => Eff.pure study.length
    | none => Eff.throw JsException.typeError) fun length =>
  Eff.bind (consoleLog ["    -", c.grey subgroupPfx, subgroup.name,
    c.grey ("(subgroup; " ++ toString length ++ " studies)")]) fun _ =>
  match p.showStudies, subgroup.study with
  | true, some study => studyLoop c "      -" subgroupPfx study
  | _, _ => Eff.pure ()

/-- Lines 71-89: the callback of `comparison.outcome.forEach`. -/
def outcomeBody (c : Chalk) (p : Program) (comparisonIndex : Nat) (outcome : Outcome)
    (outcomeIndex : Nat) : Eff Unit :=
  let pfx := outcomePfx comparisonIndex outcomeIndex
  Eff.bind (consoleLog (outcomeArgs c pfx outcome)) fun _ =>
  match outcome.subgroup with
  | some subgroup => forEach subgroup fun sg _ => subgroupBody c p pfx sg
  | none =>
    match p.showStudies, outcome.study with
    | true, some study => studyLoop c "    -" pfx study
    | _, _ => Eff.pure ()

/-- The arguments of the `console.log` of line 70. -/
def headerArgs (c : Chalk) (comparison : Comparison) : List String :=
  [c.boldBlue (joinArgs ["*", comparison.name])]

/-- Lines 69-91: the callback of `comparison.forEach`; `count` is
`task.revman.analysesAndData.comparison.length`. -/
def comparisonBody (c : Chalk) (p : Program) (count : Nat) (comparison : Comparison)
    (comparisonIndex : Nat) : Eff Unit :=
  Eff.bind (consoleLog (headerArgs c comparison)) fun _ =>
  Eff.bind (forEach comparison.outcome (outcomeBody c p comparisonIndex)) fun _ =>
  if comparisonIndex < count - 1 then consoleLog [] else Eff.pure ()

/-- The body of the tree step after its guard (lines 67-92). -/
def renderTree (c : Chalk) (p : Program) (revman : Revman) : Eff Unit :=
  forEach revman.analysesAndData.comparison
    (comparisonBody c p revman.analysesAndData.comparison.length)

/-- Lines 64-93: the tree step. -/
def treeStep (env : Env) (p : Program) (revman : Revman) : Eff Unit :=
  if !p.tree then Eff.pure ()
  else Eff.bind (Eff.emit (Event.render Renderer.tree)) fun _ => renderTree env.chalk p revman

/-- Lines 96-106: the replicant step. -/
def replicantStep (env : Env) (p : Program) (revman : Revman) : Eff Unit :=
  if !p.replicant then Eff.pure ()
  else
    Eff.bind (Eff.emit (Event.render Renderer.replicant)) fun _ =>
    Eff.bind (Eff.emit (Event.generate revman p.grammar)) fun _ =>
    match env.generate revman p.grammar with
    | Callback.err e => Eff.fail e
    | Callback.value text => consoleLog [text]

/-- Lines 109-116: the JSON step. -/
def jsonStep (env : Env) (p : Program) (revman : Revman) : Eff Unit :=
  if !p.json then Eff.pure ()
  else
    let data := if p.pretty then env.inspect revman else env.stringify revman
    Eff.bind (Eff.emit (Event.render Renderer.json)) fun _ =>
    Eff.bind (Eff.emit (Event.write data)) fun _ =>
    match env.write data with
    | some e => Eff.fail e
    | none => Eff.pure ()

/-- The chain of `then` steps, lines 25-116. -/
def chain (env : Env) (p : Program) : Eff Unit :=
  Eff.bind (sanityChecks p) fun _ =>
  Eff.bind (readStep env p) fun buffer =>
  Eff.bind (parseStep env p buffer) fun r =>
  Eff.bind (reportStep env p r.2) fun _ =>
  Eff.bind (treeStep env p r.1) fun _ =>
  Eff.bind (replicantStep env p r.1) fun _ =>
  jsonStep env p r.1

/-- How the process ends: through `process.exit(code)` in the end handler, or
by an exception that no handler of `app.js` receives. -/
inductive Status where
  | exited (code : Nat)
  | uncaught (e : JsException)
deriving DecidableEq, Repr

/-- The outcome of one run of the program. -/
structure Run where
  trace : List Event
  status : Status
deriving DecidableEq, Repr

/-- Lines 119-126: the end handler, applied to the result of the chain. -/
def main (env : Env) (p : Program) : Run :=
  match (chain env p).res with
  | Res.ok _ => ⟨(chain env p).trace ++ [Event.exit 0], Status.exited 0⟩
  | Res.fail err =>
    ⟨(chain env p).trace ++ [Event.log [env.chalk.red "Error", err.text], Event.exit 1],
      Status.exited 1⟩
  | Res.thrown e => ⟨(chain env p).trace, Status.uncaught e⟩

/-- The lines and chunks written to standard output, in order: the text of
each `console.log` call and the data of each write. -/
def stdout (spec : Char → Option (String → String)) : List Event → List String
  | [] => []
  | Event.log args :: es => format spec args :: stdout spec es
  | Event.write data :: es => data :: stdout spec es
  | _ :: es => stdout spec es

/-! ## Specification-side definitions and proof devices -/

/-- The validity report, worded as the specification does: with warnings, a
line with the path, the success marker and the count, then one indented line
per warning; without warnings, the path and the success marker; nothing when
neither verify nor verbose is set. -/
def validityReport (c : Chalk) (path : String) (reporting : Bool) (warnings : List String) :
    List Event :=
  if reporting then
    if warnings.length ≥ 1 then
      Event.log [path, "-", c.green "RevMan file is valid",
          "(" ++ c.red (toString warnings.length ++ " warnings") ++ "):"]
        :: warnings.map (fun warning => Event.log ["\t-", warning])
    else [Event.log [path, "-", c.green "RevMan file is valid"]]
  else []

/-- The 2-digit zero-padded decimal of `n`, worded as the specification does:
a leading zero below ten, the plain decimal from ten on. -/
def twoDigits (n : Nat) : String :=
  if n < 10 then "0" ++ toString n else toString n

/-- The flag of `program` that guards a render step. -/
def flagOf (p : Program) : Renderer → Bool
  | Renderer.tree => p.tree
  | Renderer.replicant => p.replicant
  | Renderer.json => p.json

/-- The three render steps in their order in the chain. -/
def renderSteps (env : Env) (p : Program) (revman : Revman) : Eff Unit :=
  Eff.bind (treeStep env p revman) fun _ =>
  Eff.bind (replicantStep env p revman) fun _ =>
  jsonStep env p revman

/-- The steps that follow the parse, for the document and warnings it returned. -/
def afterParse (env : Env) (p : Program) (revman : Revman) (warnings : List String) : Eff Unit :=
  Eff.bind (reportStep env p warnings) fun _ =>
  Eff.bind (treeStep env p revman) fun _ =>
  Eff.bind (replicantStep env p revman) fun _ =>
  jsonStep env p revman

/-- Whether an event is a call of `console.log`. -/
def Event.isLog : Event → Bool
  | Event.log _ => true
  | _ => false

/-- Whether an event is a `console.log` call with exactly one argument, as the
header line of a comparison is. -/
def Event.isHeader : Event → Bool
  | Event.log [_] => true
  | _ => false

/-- Whether every subgroup of the outcome carries a study list. -/
def Outcome.subgroupsHaveStudies (outcome : Outcome) : Bool :=
  match outcome.subgroup with
  | some subgroup => subgroup.all fun sg => sg.study.isSome
  | none => true

/-- Whether every subgroup of the document carries a study list. -/
def Revman.subgroupsHaveStudies (revman : Revman) : Bool :=
  revman.analysesAndData.comparison.all fun comparison =>
    comparison.outcome.all Outcome.subgroupsHaveStudies

/-! ## Sample inputs -/

/-- A runtime whose only specifiers are `%s` and `%%`; no sample run has another
specifier in a first argument. -/
def plainSpec : Char → Option (String → String) := fun _ => none

/-- A `chalk` with colour disabled: every style is the identity. -/
def plainChalk : Chalk := ⟨id, id, id, id⟩

/-- Collaborators that all succeed: the file holds `"<xml/>"`, the parser
returns `revman` and `warnings`, the generator returns `"Abstract."`. -/
def okEnv (revman : Revman) (warnings : List String) : Env where
  chalk := plainChalk
  readFile := fun _ => Callback.value "<xml/>"
  parse := fun _ _ _ => Callback.value (revman, warnings)
  generate := fun _ _ => Callback.value "Abstract."
  inspect := fun _ => "inspect"
  stringify := fun _ => "json"
  write := fun _ => none

/-- Collaborators that succeed except for the generator, which reports
`"ENOENT: grammar"`. -/
def generatorFailsEnv (revman : Revman) (warnings : List String) : Env where
  chalk := plainChalk
  readFile := fun _ => Callback.value "<xml/>"
  parse := fun _ _ _ => Callback.value (revman, warnings)
  generate := fun _ _ => Callback.err ⟨"ENOENT: grammar"⟩
  inspect := fun _ => "inspect"
  stringify := fun _ => "json"
  write := fun _ => none

/-- An invocation with the file `review.rm5` and no flag set. -/
def oneFileProgram : Program where
  args := ["review.rm5"]
  json := false
  pretty := false
  replicant := false
  grammar := "hal-en.html"
  tree := false
  showStudies := false
  verify := false
  verbose := false
  color := true

/-- An invocation with two files and every flag set. -/
def twoFilesProgram : Program :=
  { oneFileProgram with
    args := ["a.rm5", "b.rm5"], json := true, pretty := true, replicant := true, tree := true,
    showStudies := true, verify := true, verbose := true }

/-- An invocation with one file and only the options that select no mode. -/
def noModeProgram : Program :=
  { oneFileProgram with
    pretty := true, grammar := "other.html", showStudies := true, verbose := true,
    color := false }

/-- An invocation with one file and the verify flag only. -/
def verifyProgram : Program := { oneFileProgram with verify := true }

/-- An invocation with one file and the verify and tree flags. -/
def verifyTreeProgram : Program := { oneFileProgram with verify := true, tree := true }

/-- An invocation with one file and the tree flag only. -/
def treeProgram : Program := { oneFileProgram with tree := true }

/-- An invocation with one file and the tree and json flags, verify unset. -/
def treeJsonProgram : Program := { oneFileProgram with tree := true, json := true }

/-- An invocation with one file, the replicant and json flags and the grammar
`missing.html`. -/
def replicantJsonProgram : Program :=
  { oneFileProgram with replicant := true, json := true, grammar := "missing.html" }

/-- An invocation with one file and the tree, replicant and json flags. -/
def allRenderersProgram : Program :=
  { oneFileProgram with tree := true, replicant := true, json := true }

/-- An invocation with the verify flag and a file whose name holds `%s`. -/
def percentPathProgram : Program :=
  { oneFileProgram with args := ["a%sb.rm5"], verify := true }

/-- A document with one comparison holding one outcome with a study list and no
subgroups. -/
def sampleDoc : Revman :=
  ⟨⟨[⟨"Drug vs placebo", [⟨"Mortality", some [⟨"STD-A"⟩, ⟨"STD-B"⟩], none⟩]⟩]⟩⟩

/-- A document whose outcome carries both a study list and subgroups. -/
def studiesAndSubgroupsDoc : Revman :=
  ⟨⟨[⟨"Drug vs placebo",
      [⟨"Mortality", some [⟨"STD-A"⟩], some [⟨1, "Adults", some [⟨"STD-A"⟩]⟩]⟩]⟩]⟩⟩

/-- A document whose only subgroup carries no study list. -/
def bareSubgroupDoc : Revman :=
  ⟨⟨[⟨"Drug vs placebo", [⟨"Mortality", none, some [⟨1, "Adults", none⟩]⟩]⟩]⟩⟩

/-- A document with two comparisons; the subgroup of the first one carries no
study list. -/
def twoComparisonsDoc : Revman :=
  ⟨⟨[⟨"Drug vs placebo", [⟨"Mortality", none, some [⟨1, "Adults", none⟩]⟩]⟩,
     ⟨"Drug vs usual care", [⟨"Relapse", some [⟨"STD-B"⟩], none⟩]⟩]⟩⟩

/-- A document with a subgroup that carries a study list and, after it, one that
carries none. -/
def mixedSubgroupsDoc : Revman :=
  ⟨⟨[⟨"Drug vs placebo",
      [⟨"Mortality", none,
        some [⟨1, "Adults", some [⟨"STD-A"⟩, ⟨"STD-B"⟩]⟩, ⟨2, "Children", none⟩]⟩]⟩]⟩⟩

/-! ## Sequencing lemmas -/

theorem Eff.bind_ok {α β : Type} (m : Eff α) (f : α → Eff β) (a : α) (h : m.res = Res.ok a) :
    Eff.bind m f = ⟨m.trace ++ (f a).trace, (f a).res⟩ := by
  simp [Eff.bind, h]

theorem Eff.bind_fail {α β : Type} (m : Eff α) (f : α → Eff β) (err : JsError)
    (h : m.res = Res.fail err) : Eff.bind m f = ⟨m.trace, Res.fail err⟩ := by
  simp [Eff.bind, h]

theorem Eff.bind_thrown {α β : Type} (m : Eff α) (f : α → Eff β) (e : JsException)
    (h : m.res = Res.thrown e) : Eff.bind m f = ⟨m.trace, Res.thrown e⟩ := by
  simp [Eff.bind, h]

theorem Eff.bind_mk_ok {α β : Type} (t : List Event) (a : α) (f : α → Eff β) :
    Eff.bind ⟨t, Res.ok a⟩ f = ⟨t ++ (f a).trace, (f a).res⟩ := rfl

/-- A loop whose callback only calls `console.log` and ignores the index logs one
line per element, in order, and ends normally. -/
theorem forEachFrom_log_map {α : Type} (g : α → List String) (xs : List α) (k : Nat) :
    forEachFrom (fun x _ => consoleLog (g x)) xs k
      = ⟨xs.map (fun x => Event.log (g x)), Res.ok ()⟩ := by
  induction xs generalizing k with
  | nil => rfl
  | cons x xs ih =>
    rw [forEachFrom, ih]
    simp [consoleLog, Eff.emit, Eff.bind]

/-! ## Validation -/

theorem sanityChecks_of_length_ne (p : Program) (h : p.args.length ≠ 1) :
    sanityChecks p = Eff.fail ⟨"RevMan-Replicant needs exactly one RevMan file to work with"⟩ := by
  simp [sanityChecks, h]

theorem sanityChecks_of_no_mode (p : Program) (h : p.args.length = 1) (ht : p.tree = false)
    (hr : p.replicant = false) (hj : p.json = false) (hv : p.verify = false) :
    sanityChecks p = Eff.fail ⟨"Specify at least --tree, --replicant or --json"⟩ := by
  simp [sanityChecks, h, ht, hr, hj, hv]

theorem sanityChecks_of_mode (p : Program) (h : p.args.length = 1)
    (hm : p.tree = true ∨ p.replicant = true ∨ p.json = true ∨ p.verify = true) :
    sanityChecks p = Eff.pure () := by
  rcases hm with hm | hm | hm | hm <;> simp [sanityChecks, h, hm]

/-- When the sanity checks fail the run is the error line and `process.exit(1)`. -/
theorem main_of_sanity_fail (env : Env) (p : Program) (err : JsError)
    (h : sanityChecks p = Eff.fail err) :
    main env p = ⟨[Event.log [env.chalk.red "Error", err.text], Event.exit 1], Status.exited 1⟩ := by
  simp [main, chain, h, Eff.fail, Eff.bind]

/-- C1: an invocation whose number of positional arguments is not exactly 1
fails in the sanity checks with the message about needing exactly one RevMan
file, whatever the flags; the run consists of the error line and the exit with
status 1 only, so the file is not read, the parser is not called and nothing is
rendered. -/
theorem wrong_argument_count_fails (env : Env) (p : Program) (h : p.args.length ≠ 1) :
    sanityChecks p
        = Eff.fail ⟨"RevMan-Replicant needs exactly one RevMan file to work with"⟩ ∧
      main env p
        = ⟨[Event.log [env.chalk.red "Error",
              "RevMan-Replicant needs exactly one RevMan file to work with"], Event.exit 1],
            Status.exited 1⟩ :=
  ⟨sanityChecks_of_length_ne p h,
    main_of_sanity_fail env p _ (sanityChecks_of_length_ne p h)⟩

/-- An invocation with two files and every flag set ends in the first sanity check. -/
theorem wrong_argument_count_fails_witness :
    twoFilesProgram.args.length ≠ 1 ∧
      main (okEnv sampleDoc []) twoFilesProgram
        = ⟨[Event.log ["Error", "RevMan-Replicant needs exactly one RevMan file to work with"],
              Event.exit 1], Status.exited 1⟩ :=
  ⟨by decide, (wrong_argument_count_fails (okEnv sampleDoc []) twoFilesProgram (by decide)).2⟩

/-- C2: with exactly one positional argument the sanity checks fail if and only
if none of tree, replicant, json, verify is set; the failure carries the
message asking for at least one mode, and the run is then the error line and
the exit with status 1 only, so the file is not read. -/
theorem no_mode_flag_fails_iff (env : Env) (p : Program) (h : p.args.length = 1) :
    ((∃ err, (sanityChecks p).res = Res.fail err)
        ↔ (p.tree = false ∧ p.replicant = false ∧ p.json = false ∧ p.verify = false)) ∧
      ((p.tree = false ∧ p.replicant = false ∧ p.json = false ∧ p.verify = false) →
        sanityChecks p = Eff.fail ⟨"Specify at least --tree, --replicant or --json"⟩ ∧
        main env p
          = ⟨[Event.log [env.chalk.red "Error",
                "Specify at least --tree, --replicant or --json"], Event.exit 1],
              Status.exited 1⟩) := by
  refine ⟨⟨?_, ?_⟩, ?_⟩
  · rintro ⟨err, herr⟩
    by_contra hne
    have hm : p.tree = true ∨ p.replicant = true ∨ p.json = true ∨ p.verify = true := by
      by_contra hno
      apply hne
      simp only [not_or, Bool.not_eq_true] at hno
      exact hno
    rw [sanityChecks_of_mode p h hm] at herr
    simp [Eff.pure] at herr
  · rintro ⟨ht, hr, hj, hv⟩
    exact ⟨_, by rw [sanityChecks_of_no_mode p h ht hr hj hv]; rfl⟩
  · rintro ⟨ht, hr, hj, hv⟩
    exact ⟨sanityChecks_of_no_mode p h ht hr hj hv,
      main_of_sanity_fail env p _ (sanityChecks_of_no_mode p h ht hr hj hv)⟩

/-- An invocation with one file, the verbose, pretty and show-studies options and no
mode flag ends in the second sanity check. -/
theorem no_mode_flag_fails_iff_witness :
    noModeProgram.args.length = 1 ∧
      main (okEnv sampleDoc ["w"]) noModeProgram
        = ⟨[Event.log ["Error", "Specify at least --tree, --replicant or --json"],
              Event.exit 1], Status.exited 1⟩ :=
  ⟨by decide,
    ((no_mode_flag_fails_iff (okEnv sampleDoc ["w"]) noModeProgram (by decide)).2
      (by decide)).2⟩

/-! ## The chain after a successful read and parse -/

/-- With one argument, a mode flag, a readable file and a successful parse, the
chain is the read and parse calls followed by the steps after the parse. -/
theorem chain_of_parsed (env : Env) (p : Program) (buffer : String) (revman : Revman)
    (warnings : List String) (h : p.args.length = 1)
    (hm : p.tree = true ∨ p.replicant = true ∨ p.json = true ∨ p.verify = true)
    (hread : env.readFile (arg0 p) = Callback.value buffer)
    (hparse : env.parse buffer (p.verbose || p.verify) false = Callback.value (revman, warnings)) :
    chain env p
      = ⟨[Event.readFile (arg0 p), Event.parse buffer (p.verbose || p.verify) false]
            ++ (afterParse env p revman warnings).trace,
          (afterParse env p revman warnings).res⟩ := by
  simp [chain, sanityChecks_of_mode p h hm, readStep, parseStep, hread, hparse, Eff.pure,
    Eff.emit, Eff.bind_mk_ok, afterParse]

/-- The report step always ends normally and prints the validity report. -/
theorem reportStep_eq (env : Env) (p : Program) (warnings : List String) :
    reportStep env p warnings
      = ⟨validityReport env.chalk (arg0 p) (p.verify || p.verbose) warnings, Res.ok ()⟩ := by
  unfold reportStep validityReport forEach
  rw [forEachFrom_log_map]
  cases hv : (p.verify || p.verbose) <;> cases warnings <;>
    simp [consoleLog, Eff.emit, Eff.pure, Eff.bind]

theorem afterParse_eq (env : Env) (p : Program) (revman : Revman) (warnings : List String) :
    afterParse env p revman warnings
      = ⟨validityReport env.chalk (arg0 p) (p.verify || p.verbose) warnings
            ++ (renderSteps env p revman).trace,
          (renderSteps env p revman).res⟩ := by
  unfold afterParse
  rw [reportStep_eq, Eff.bind_mk_ok]
  rfl

theorem main_of_ok (env : Env) (p : Program) (h : (chain env p).res = Res.ok ()) :
    main env p = ⟨(chain env p).trace ++ [Event.exit 0], Status.exited 0⟩ := by
  simp [main, h]

theorem main_of_fail (env : Env) (p : Program) (err : JsError)
    (h : (chain env p).res = Res.fail err) :
    main env p
      = ⟨(chain env p).trace ++ [Event.log [env.chalk.red "Error", err.text], Event.exit 1],
          Status.exited 1⟩ := by
  simp [main, h]

theorem main_of_thrown (env : Env) (p : Program) (e : JsException)
    (h : (chain env p).res = Res.thrown e) :
    main env p = ⟨(chain env p).trace, Status.uncaught e⟩ := by
  simp [main, h]

/-- The trace of a run starts with the trace of the chain. -/
theorem main_trace_prefix (env : Env) (p : Program) :
    ∃ tail, (main env p).trace = (chain env p).trace ++ tail := by
  cases h : (chain env p).res with
  | ok a => exact ⟨[Event.exit 0], by rw [main_of_ok env p h]⟩
  | fail err => exact ⟨_, by rw [main_of_fail env p err h]⟩
  | thrown e => exact ⟨[], by rw [main_of_thrown env p e h]; simp⟩

/-! ## The validity report -/

/-- The calls of the report step, for every file path: after a successful
parse that returned `warnings`, when verify or verbose is set and there is at
least one warning `console.log` is called once with the file path, the dash, the
success marker and the count of warnings, and then once per warning of the list
the parser returned, in the same order; when verify or verbose is set and there
is no warning it is called once with the file path, the dash and the success
marker; and it is not called when neither flag is set.  In the run these calls
come right after the read and parse calls. -/
theorem validity_report_lists_warnings (env : Env) (p : Program) (buffer : String)
    (revman : Revman) (warnings : List String) (h : p.args.length = 1)
    (hm : p.tree = true ∨ p.replicant = true ∨ p.json = true ∨ p.verify = true)
    (hread : env.readFile (arg0 p) = Callback.value buffer)
    (hparse : env.parse buffer (p.verbose || p.verify) false = Callback.value (revman, warnings)) :
    (reportStep env p warnings).res = Res.ok () ∧
      ((p.verify = true ∨ p.verbose = true) → warnings.length ≥ 1 →
        (reportStep env p warnings).trace
          = Event.log [arg0 p, "-", env.chalk.green "RevMan file is valid",
                "(" ++ env.chalk.red (toString warnings.length ++ " warnings") ++ "):"]
              :: warnings.map (fun warning => Event.log ["\t-", warning])) ∧
      ((p.verify = true ∨ p.verbose = true) → warnings.length = 0 →
        (reportStep env p warnings).trace
          = [Event.log [arg0 p, "-", env.chalk.green "RevMan file is valid"]]) ∧
      (p.verify = false → p.verbose = false → (reportStep env p warnings).trace = []) ∧
      ∃ rest, (main env p).trace
        = [Event.readFile (arg0 p), Event.parse buffer (p.verbose || p.verify) false]
            ++ (reportStep env p warnings).trace ++ rest := by
  refine ⟨by rw [reportStep_eq], ?_, ?_, ?_, ?_⟩
  · intro hv hn
    have hv2 : (p.verify || p.verbose) = true := by simpa using hv
    rw [reportStep_eq]
    simp [validityReport, hv2, hn]
  · intro hv hn
    have hv2 : (p.verify || p.verbose) = true := by simpa using hv
    rw [reportStep_eq]
    simp [validityReport, hv2, hn]
  · intro hv hb
    rw [reportStep_eq]
    simp [validityReport, hv, hb]
  · obtain ⟨tail, ht⟩ := main_trace_prefix env p
    refine ⟨(renderSteps env p revman).trace ++ tail, ?_⟩
    rw [ht, chain_of_parsed env p buffer revman warnings h hm hread hparse, afterParse_eq,
      reportStep_eq]
    simp

/-- With verify set and three warnings the report is the header with the count and
the three warnings in the order the parser returned them. -/
theorem validity_report_lists_warnings_witness :
    verifyProgram.args.length = 1 ∧
      (reportStep (okEnv sampleDoc ["first", "second", "third"]) verifyProgram
          ["first", "second", "third"]).trace
        = [Event.log ["review.rm5", "-", "RevMan file is valid", "(3 warnings):"],
            Event.log ["\t-", "first"], Event.log ["\t-", "second"],
            Event.log ["\t-", "third"]] :=
  ⟨by decide,
    (validity_report_lists_warnings (okEnv sampleDoc ["first", "second", "third"])
      verifyProgram "<xml/>" sampleDoc ["first", "second", "third"] (by decide) (by decide)
      rfl rfl).2.1 (by decide) (by decide)⟩

/-! ## Events of the tree renderer -/

theorem Eff.mem_bind {α β : Type} (m : Eff α) (f : α → Eff β) (e : Event)
    (h : e ∈ (Eff.bind m f).trace) : e ∈ m.trace ∨ ∃ a, m.res = Res.ok a ∧ e ∈ (f a).trace := by
  unfold Eff.bind at h
  cases hm : m.res with
  | ok a =>
    rw [hm] at h
    simp only [List.mem_append] at h
    rcases h with h | h
    · exact Or.inl h
    · exact Or.inr ⟨a, rfl, h⟩
  | fail err => rw [hm] at h; exact Or.inl h
  | thrown x => rw [hm] at h; exact Or.inl h

theorem Eff.mem_bind_left {α β : Type} (m : Eff α) (f : α → Eff β) (e : Event)
    (h : e ∈ m.trace) : e ∈ (Eff.bind m f).trace := by
  unfold Eff.bind
  cases hm : m.res <;> simp [h]

theorem Eff.forall_bind {α β : Type} (P : Event → Prop) (m : Eff α) (f : α → Eff β)
    (hm : ∀ e ∈ m.trace, P e) (hf : ∀ a, ∀ e ∈ (f a).trace, P e) :
    ∀ e ∈ (Eff.bind m f).trace, P e := by
  intro e he
  rcases Eff.mem_bind m f e he with h | ⟨a, _, h⟩
  · exact hm e h
  · exact hf a e h

theorem forEachFrom_forall {α : Type} (P : Event → Prop) (f : α → Nat → Eff Unit)
    (hf : ∀ x i, ∀ e ∈ (f x i).trace, P e) (xs : List α) (k : Nat) :
    ∀ e ∈ (forEachFrom f xs k).trace, P e := by
  induction xs generalizing k with
  | nil => intro e he; simp [forEachFrom, Eff.pure] at he
  | cons x xs ih =>
    rw [forEachFrom]
    exact Eff.forall_bind P _ _ (hf x k) (fun _ => ih (k + 1))

theorem consoleLog_isLog (args : List String) :
    ∀ e ∈ (consoleLog args).trace, e.isLog = true := by
  intro e he
  simp [consoleLog, Eff.emit] at he
  rw [he]; rfl

theorem pure_forall {α : Type} (P : Event → Prop) (a : α) :
    ∀ e ∈ (Eff.pure a).trace, P e := by
  intro e he; simp [Eff.pure] at he

theorem studyLoop_isLog (c : Chalk) (dash pfx : String) (study : List Study) :
    ∀ e ∈ (studyLoop c dash pfx study).trace, e.isLog = true :=
  forEachFrom_forall _ _ (fun _ _ => consoleLog_isLog _) study 0

theorem subgroupBody_isLog (c : Chalk) (p : Program) (pfx : String) (subgroup : Subgroup) :
    ∀ e ∈ (subgroupBody c p pfx subgroup).trace, e.isLog = true := by
  unfold subgroupBody
  refine Eff.forall_bind _ _ _ ?_ (fun _ => Eff.forall_bind _ _ _ (consoleLog_isLog _) ?_)
  · cases subgroup.study <;> intro e he <;> simp [Eff.pure, Eff.throw] at he
  · intro _
    cases p.showStudies <;> cases subgroup.study
    · exact pure_forall _ _
    · exact pure_forall _ _
    · exact pure_forall _ _
    · exact studyLoop_isLog _ _ _ _

theorem outcomeBody_isLog (c : Chalk) (p : Program) (comparisonIndex : Nat) (outcome : Outcome)
    (outcomeIndex : Nat) :
    ∀ e ∈ (outcomeBody c p comparisonIndex outcome outcomeIndex).trace, e.isLog = true := by
  unfold outcomeBody
  refine Eff.forall_bind _ _ _ (consoleLog_isLog _) ?_
  intro _
  cases outcome.subgroup with
  | some subgroup =>
    exact forEachFrom_forall _ _ (fun _ _ => subgroupBody_isLog _ _ _ _) subgroup 0
  | none =>
    cases p.showStudies <;> cases outcome.study
    · exact pure_forall _ _
    · exact pure_forall _ _
    · exact pure_forall _ _
    · exact studyLoop_isLog _ _ _ _

theorem comparisonBody_isLog (c : Chalk) (p : Program) (count : Nat) (comparison : Comparison)
    (comparisonIndex : Nat) :
    ∀ e ∈ (comparisonBody c p count comparison comparisonIndex).trace, e.isLog = true := by
  unfold comparisonBody
  refine Eff.forall_bind _ _ _ (consoleLog_isLog _) (fun _ => Eff.forall_bind _ _ _ ?_ ?_)
  · exact forEachFrom_forall _ _ (fun _ _ => outcomeBody_isLog _ _ _ _ _) _ 0
  · intro _
    split
    · exact consoleLog_isLog _
    · exact pure_forall _ _

/-- The tree renderer only calls `console.log`. -/
theorem renderTree_isLog (c : Chalk) (p : Program) (revman : Revman) :
    ∀ e ∈ (renderTree c p revman).trace, e.isLog = true :=
  forEachFrom_forall _ _ (fun _ _ => comparisonBody_isLog _ _ _ _ _) _ 0

/-! ## The render steps -/

theorem validityReport_isLog (c : Chalk) (path : String) (reporting : Bool)
    (warnings : List String) :
    ∀ e ∈ validityReport c path reporting warnings, e.isLog = true := by
  intro e he
  unfold validityReport at he
  split at he
  · split at he
    · simp only [List.mem_cons, List.mem_map] at he
      rcases he with he | ⟨w, _, he⟩
      · rw [he]; rfl
      · rw [← he]; rfl
    · simp only [List.mem_singleton] at he
      rw [he]; rfl
  · simp at he

theorem treeStep_of_tree (env : Env) (p : Program) (revman : Revman) (h : p.tree = true) :
    treeStep env p revman
      = ⟨Event.render Renderer.tree :: (renderTree env.chalk p revman).trace,
          (renderTree env.chalk p revman).res⟩ := by
  simp [treeStep, h, Eff.emit, Eff.bind]

theorem treeStep_of_not_tree (env : Env) (p : Program) (revman : Revman) (h : p.tree = false) :
    treeStep env p revman = ⟨[], Res.ok ()⟩ := by
  simp [treeStep, h, Eff.pure]

/-- Every event of the tree step is a `console.log` call or the mark of the
tree renderer, and the mark only appears when the tree flag is set. -/
theorem treeStep_events (env : Env) (p : Program) (revman : Revman) :
    ∀ e ∈ (treeStep env p revman).trace,
      e.isLog = true ∨ (e = Event.render Renderer.tree ∧ p.tree = true) := by
  intro e he
  cases h : p.tree with
  | false => rw [treeStep_of_not_tree env p revman h] at he; simp at he
  | true =>
    rw [treeStep_of_tree env p revman h] at he
    simp only [List.mem_cons] at he
    rcases he with he | he
    · exact Or.inr ⟨he, rfl⟩
    · exact Or.inl (renderTree_isLog _ _ _ e he)

theorem replicantStep_of_not (env : Env) (p : Program) (revman : Revman)
    (h : p.replicant = false) : replicantStep env p revman = ⟨[], Res.ok ()⟩ := by
  simp [replicantStep, h, Eff.pure]

theorem replicantStep_of_err (env : Env) (p : Program) (revman : Revman) (err : JsError)
    (h : p.replicant = true) (hgen : env.generate revman p.grammar = Callback.err err) :
    replicantStep env p revman
      = ⟨[Event.render Renderer.replicant, Event.generate revman p.grammar], Res.fail err⟩ := by
  simp [replicantStep, h, hgen, Eff.emit, Eff.bind, Eff.fail]

theorem replicantStep_of_value (env : Env) (p : Program) (revman : Revman) (text : String)
    (h : p.replicant = true) (hgen : env.generate revman p.grammar = Callback.value text) :
    replicantStep env p revman
      = ⟨[Event.render Renderer.replicant, Event.generate revman p.grammar, Event.log [text]],
          Res.ok ()⟩ := by
  simp [replicantStep, h, hgen, Eff.emit, Eff.bind, consoleLog]

theorem jsonStep_of_not (env : Env) (p : Program) (revman : Revman) (h : p.json = false) :
    jsonStep env p revman = ⟨[], Res.ok ()⟩ := by
  simp [jsonStep, h, Eff.pure]

theorem jsonStep_trace_of_json (env : Env) (p : Program) (revman : Revman) (h : p.json = true) :
    (jsonStep env p revman).trace
      = [Event.render Renderer.json,
          Event.write (if p.pretty then env.inspect revman else env.stringify revman)] := by
  unfold jsonStep
  cases hw : env.write (if p.pretty = true then env.inspect revman else env.stringify revman) <;>
    simp [h, hw, Eff.emit, Eff.bind, Eff.fail, Eff.pure]

/-- A mark of a render step in the trace of that step means its flag is set. -/
theorem replicantStep_render (env : Env) (p : Program) (revman : Revman) (r : Renderer)
    (h : Event.render r ∈ (replicantStep env p revman).trace) :
    r = Renderer.replicant ∧ p.replicant = true := by
  cases hr : p.replicant with
  | false => rw [replicantStep_of_not env p revman hr] at h; simp at h
  | true =>
    cases hg : env.generate revman p.grammar with
    | err e => rw [replicantStep_of_err env p revman e hr hg] at h; simpa using h
    | value t => rw [replicantStep_of_value env p revman t hr hg] at h; simpa using h

theorem jsonStep_render (env : Env) (p : Program) (revman : Revman) (r : Renderer)
    (h : Event.render r ∈ (jsonStep env p revman).trace) :
    r = Renderer.json ∧ p.json = true := by
  cases hj : p.json with
  | false => rw [jsonStep_of_not env p revman hj] at h; simp at h
  | true => rw [jsonStep_trace_of_json env p revman hj] at h; simpa using h

theorem treeStep_render (env : Env) (p : Program) (revman : Revman) (r : Renderer)
    (h : Event.render r ∈ (treeStep env p revman).trace) :
    r = Renderer.tree ∧ p.tree = true := by
  rcases treeStep_events env p revman _ h with h1 | ⟨h1, h2⟩
  · simp [Event.isLog] at h1
  · exact ⟨by simpa using h1, h2⟩

/-- A mark of a render step anywhere in the three steps means its flag is set. -/
theorem renderSteps_render (env : Env) (p : Program) (revman : Revman) (r : Renderer)
    (h : Event.render r ∈ (renderSteps env p revman).trace) : flagOf p r = true := by
  unfold renderSteps at h
  rcases Eff.mem_bind _ _ _ h with h | ⟨_, _, h⟩
  · obtain ⟨rfl, ht⟩ := treeStep_render env p revman r h
    exact ht
  · rcases Eff.mem_bind _ _ _ h with h | ⟨_, _, h⟩
    · obtain ⟨rfl, ht⟩ := replicantStep_render env p revman r h
      exact ht
    · obtain ⟨rfl, ht⟩ := jsonStep_render env p revman r h
      exact ht

/-- The run after a successful read and parse, by the result of the three
render steps. -/
theorem main_of_parsed (env : Env) (p : Program) (buffer : String) (revman : Revman)
    (warnings : List String) (h : p.args.length = 1)
    (hm : p.tree = true ∨ p.replicant = true ∨ p.json = true ∨ p.verify = true)
    (hread : env.readFile (arg0 p) = Callback.value buffer)
    (hparse : env.parse buffer (p.verbose || p.verify) false = Callback.value (revman, warnings)) :
    main env p
      = match (renderSteps env p revman).res with
        | Res.ok _ =>
          ⟨[Event.readFile (arg0 p), Event.parse buffer (p.verbose || p.verify) false]
              ++ validityReport env.chalk (arg0 p) (p.verify || p.verbose) warnings
              ++ (renderSteps env p revman).trace ++ [Event.exit 0], Status.exited 0⟩
        | Res.fail err =>
          ⟨[Event.readFile (arg0 p), Event.parse buffer (p.verbose || p.verify) false]
              ++ validityReport env.chalk (arg0 p) (p.verify || p.verbose) warnings
              ++ (renderSteps env p revman).trace
              ++ [Event.log [env.chalk.red "Error", err.text], Event.exit 1], Status.exited 1⟩
        | Res.thrown e =>
          ⟨[Event.readFile (arg0 p), Event.parse buffer (p.verbose || p.verify) false]
              ++ validityReport env.chalk (arg0 p) (p.verify || p.verbose) warnings
              ++ (renderSteps env p revman).trace, Status.uncaught e⟩ := by
  unfold main
  rw [chain_of_parsed env p buffer revman warnings h hm hread hparse, afterParse_eq]
  cases (renderSteps env p revman).res <;> simp

/-! ## A failing generator -/

theorem generate_not_mem_report_tree (env : Env) (p : Program) (revman : Revman)
    (warnings : List String) (rv : Revman) (g : String) :
    Event.generate rv g ∉ validityReport env.chalk (arg0 p) (p.verify || p.verbose) warnings ∧
      Event.generate rv g ∉ (treeStep env p revman).trace := by
  constructor
  · intro hmem
    have := validityReport_isLog _ _ _ _ _ hmem
    simp [Event.isLog] at this
  · intro hmem
    rcases treeStep_events env p revman _ hmem with h1 | ⟨h1, _⟩
    · simp [Event.isLog] at h1
    · simp at h1

/-- C10: with the replicant flag set, after a successful validation, read and
parse, when the generator is called in the run and reports an error, the run
ends right after that call with the error line of the end handler carrying the
generator error and with exit status 1: no abstract text is printed, and the
JSON step neither starts nor writes, whether or not the json flag is set. -/
theorem generator_error_aborts (env : Env) (p : Program) (buffer : String) (revman : Revman)
    (warnings : List String) (err : JsError) (h : p.args.length = 1)
    (hr : p.replicant = true)
    (hread : env.readFile (arg0 p) = Callback.value buffer)
    (hparse : env.parse buffer (p.verbose || p.verify) false = Callback.value (revman, warnings))
    (hgen : env.generate revman p.grammar = Callback.err err)
    (hcalled : Event.generate revman p.grammar ∈ (main env p).trace) :
    main env p
        = ⟨[Event.readFile (arg0 p), Event.parse buffer (p.verbose || p.verify) false]
              ++ (reportStep env p warnings).trace ++ (treeStep env p revman).trace
              ++ [Event.render Renderer.replicant, Event.generate revman p.grammar,
                  Event.log [env.chalk.red "Error", err.text], Event.exit 1],
            Status.exited 1⟩ ∧
      Event.render Renderer.json ∉ (main env p).trace ∧
      ∀ data, Event.write data ∉ (main env p).trace := by
  have hm : p.tree = true ∨ p.replicant = true ∨ p.json = true ∨ p.verify = true :=
    Or.inr (Or.inl hr)
  have hmain := main_of_parsed env p buffer revman warnings h hm hread hparse
  obtain ⟨hg1, hg2⟩ := generate_not_mem_report_tree env p revman warnings revman p.grammar
  have hsteps : renderSteps env p revman
      = Eff.bind (treeStep env p revman) fun _ =>
          Eff.bind (replicantStep env p revman) fun _ => jsonStep env p revman := rfl
  rw [replicantStep_of_err env p revman err hr hgen] at hsteps
  cases hT : (treeStep env p revman).res with
  | ok u =>
    have hrs : renderSteps env p revman
        = ⟨(treeStep env p revman).trace
            ++ [Event.render Renderer.replicant, Event.generate revman p.grammar],
            Res.fail err⟩ := by
      rw [hsteps, Eff.bind_ok _ _ u hT]
      rfl
    rw [hrs] at hmain
    simp only at hmain
    have hfinal : main env p
        = ⟨[Event.readFile (arg0 p), Event.parse buffer (p.verbose || p.verify) false]
              ++ (reportStep env p warnings).trace ++ (treeStep env p revman).trace
              ++ [Event.render Renderer.replicant, Event.generate revman p.grammar,
                  Event.log [env.chalk.red "Error", err.text], Event.exit 1],
            Status.exited 1⟩ := by
      rw [hmain, reportStep_eq]
      simp
    refine ⟨hfinal, ?_, ?_⟩
    · rw [hfinal, reportStep_eq]
      intro hmem
      simp only [List.mem_append, List.mem_cons, List.mem_singleton, List.mem_nil_iff] at hmem
      rcases hmem with ((hmem | hmem) | hmem) | hmem
      · simp at hmem
      · have := validityReport_isLog _ _ _ _ _ hmem
        simp [Event.isLog] at this
      · have := (treeStep_render env p revman _ hmem).1
        simp at this
      · simp at hmem
    · intro data
      rw [hfinal, reportStep_eq]
      intro hmem
      simp only [List.mem_append, List.mem_cons, List.mem_singleton, List.mem_nil_iff] at hmem
      rcases hmem with ((hmem | hmem) | hmem) | hmem
      · simp at hmem
      · have := validityReport_isLog _ _ _ _ _ hmem
        simp [Event.isLog] at this
      · rcases treeStep_events env p revman _ hmem with h1 | ⟨h1, _⟩
        · simp [Event.isLog] at h1
        · simp at h1
      · simp at hmem
  | fail e2 =>
    exfalso
    rw [hsteps, Eff.bind_fail _ _ e2 hT] at hmain
    simp only at hmain
    rw [hmain] at hcalled
    simp only [List.mem_append, List.mem_cons, List.mem_singleton, List.mem_nil_iff] at hcalled
    rcases hcalled with ((hc | hc) | hc) | hc
    · simp at hc
    · exact hg1 hc
    · exact hg2 hc
    · simp at hc
  | thrown x =>
    exfalso
    rw [hsteps, Eff.bind_thrown _ _ x hT] at hmain
    simp only at hmain
    rw [hmain] at hcalled
    simp only [List.mem_append, List.mem_cons, List.mem_singleton, List.mem_nil_iff] at hcalled
    rcases hcalled with (hc | hc) | hc
    · simp at hc
    · exact hg1 hc
    · exact hg2 hc

/-- With replicant and json set and a failing generator the run ends with the
generator error and status 1, and nothing is written by the JSON step. -/
theorem generator_error_aborts_witness :
    main (generatorFailsEnv sampleDoc []) replicantJsonProgram
      = ⟨[Event.readFile "review.rm5", Event.parse "<xml/>" false false,
            Event.render Renderer.replicant, Event.generate sampleDoc "missing.html",
            Event.log ["Error", "ENOENT: grammar"], Event.exit 1], Status.exited 1⟩ :=
  (generator_error_aborts (generatorFailsEnv sampleDoc []) replicantJsonProgram "<xml/>"
    sampleDoc [] ⟨"ENOENT: grammar"⟩ (by decide) (by decide) rfl rfl rfl (by decide)).1

/-! ## Which renderers run -/

theorem stdout_append (spec : Char → Option (String → String)) (xs ys : List Event) :
    stdout spec (xs ++ ys) = stdout spec xs ++ stdout spec ys := by
  induction xs with
  | nil => rfl
  | cons x xs ih => cases x <;> simp [stdout, ih]

/-- An event of the three render steps is an event of the run. -/
theorem mem_main_of_mem_renderSteps (env : Env) (p : Program) (buffer : String)
    (revman : Revman) (warnings : List String) (h : p.args.length = 1)
    (hm : p.tree = true ∨ p.replicant = true ∨ p.json = true ∨ p.verify = true)
    (hread : env.readFile (arg0 p) = Callback.value buffer)
    (hparse : env.parse buffer (p.verbose || p.verify) false = Callback.value (revman, warnings))
    (e : Event) (he : e ∈ (renderSteps env p revman).trace) : e ∈ (main env p).trace := by
  rw [main_of_parsed env p buffer revman warnings h hm hread hparse]
  cases (renderSteps env p revman).res <;> simp [he]

/-- A mark of a render step in the run is a mark in the three render steps. -/
theorem render_mem_renderSteps_of_mem_main (env : Env) (p : Program) (buffer : String)
    (revman : Revman) (warnings : List String) (h : p.args.length = 1)
    (hm : p.tree = true ∨ p.replicant = true ∨ p.json = true ∨ p.verify = true)
    (hread : env.readFile (arg0 p) = Callback.value buffer)
    (hparse : env.parse buffer (p.verbose || p.verify) false = Callback.value (revman, warnings))
    (r : Renderer) (he : Event.render r ∈ (main env p).trace) :
    Event.render r ∈ (renderSteps env p revman).trace := by
  rw [main_of_parsed env p buffer revman warnings h hm hread hparse] at he
  have hrep : Event.render r ∉
      validityReport env.chalk (arg0 p) (p.verify || p.verbose) warnings := by
    intro hmem
    have := validityReport_isLog _ _ _ _ _ hmem
    simp [Event.isLog] at this
  cases hres : (renderSteps env p revman).res <;> rw [hres] at he <;>
    simp only [List.mem_append, List.mem_cons, List.mem_singleton, List.mem_nil_iff] at he
  · rcases he with ((he | he) | he) | he
    · simp at he
    · exact absurd he hrep
    · exact he
    · simp at he
  · rcases he with ((he | he) | he) | he
    · simp at he
    · exact absurd he hrep
    · exact he
    · simp at he
  · rcases he with (he | he) | he
    · simp at he
    · exact absurd he hrep
    · exact he

theorem replicantStep_mark (env : Env) (p : Program) (revman : Revman)
    (h : p.replicant = true) :
    Event.render Renderer.replicant ∈ (replicantStep env p revman).trace := by
  cases hg : env.generate revman p.grammar with
  | err e => rw [replicantStep_of_err env p revman e h hg]; simp
  | value t => rw [replicantStep_of_value env p revman t h hg]; simp

theorem jsonStep_mark (env : Env) (p : Program) (revman : Revman) (h : p.json = true) :
    Event.render Renderer.json ∈ (jsonStep env p revman).trace := by
  rw [jsonStep_trace_of_json env p revman h]; simp

theorem treeStep_mark (env : Env) (p : Program) (revman : Revman) (h : p.tree = true) :
    Event.render Renderer.tree ∈ (treeStep env p revman).trace := by
  rw [treeStep_of_tree env p revman h]; simp

/-- With a render flag set, the first selected render step starts. -/
theorem renderSteps_some_mark (env : Env) (p : Program) (revman : Revman)
    (hf : p.tree = true ∨ p.replicant = true ∨ p.json = true) :
    ∃ r, Event.render r ∈ (renderSteps env p revman).trace := by
  unfold renderSteps
  cases ht : p.tree with
  | true => exact ⟨_, Eff.mem_bind_left _ _ _ (treeStep_mark env p revman ht)⟩
  | false =>
    rw [treeStep_of_not_tree env p revman ht, Eff.bind_mk_ok]
    cases hr : p.replicant with
    | true =>
      exact ⟨Renderer.replicant, by
        simpa using Eff.mem_bind_left _ _ _ (replicantStep_mark env p revman hr)⟩
    | false =>
      rw [replicantStep_of_not env p revman hr, Eff.bind_mk_ok]
      have hj : p.json = true := by
        rcases hf with hf | hf | hf
        · rw [ht] at hf; cases hf
        · rw [hr] at hf; cases hf
        · exact hf
      exact ⟨Renderer.json, by simpa using jsonStep_mark env p revman hj⟩

/-- The trace of the three render steps when the tree step completes and the
generator, if called, returns `text`: the events of the selected steps in the
order tree, replicant, JSON. -/
theorem renderSteps_in_order (env : Env) (p : Program) (revman : Revman) (text : String)
    (hT : (treeStep env p revman).res = Res.ok ())
    (hgen : p.replicant = true → env.generate revman p.grammar = Callback.value text) :
    (renderSteps env p revman).trace
        = (if p.tree then Event.render Renderer.tree :: (renderTree env.chalk p revman).trace
            else [])
          ++ (if p.replicant then
                [Event.render Renderer.replicant, Event.generate revman p.grammar,
                  Event.log [text]]
              else [])
          ++ (if p.json then
                [Event.render Renderer.json,
                  Event.write (if p.pretty then env.inspect revman else env.stringify revman)]
              else []) ∧
      (renderSteps env p revman).res
        = match (if p.json then
              env.write (if p.pretty then env.inspect revman else env.stringify revman)
            else none) with
          | some err => Res.fail err
          | none => Res.ok () := by
  have hts : (treeStep env p revman).trace
      = if p.tree then Event.render Renderer.tree :: (renderTree env.chalk p revman).trace
        else [] := by
    cases ht : p.tree with
    | false => rw [treeStep_of_not_tree env p revman ht]; simp
    | true => rw [treeStep_of_tree env p revman ht]; simp
  have hR : replicantStep env p revman
      = ⟨if p.replicant then
            [Event.render Renderer.replicant, Event.generate revman p.grammar, Event.log [text]]
          else [], Res.ok ()⟩ := by
    cases hr : p.replicant with
    | false => rw [replicantStep_of_not env p revman hr]; simp
    | true => rw [replicantStep_of_value env p revman text hr (hgen hr)]; simp
  unfold renderSteps
  rw [Eff.bind_ok _ _ () hT, hR, Eff.bind_mk_ok, hts]
  unfold jsonStep
  cases hj : p.json
  · simp [Eff.pure]
  · cases hw : env.write (if p.pretty = true then env.inspect revman else env.stringify revman)
      <;> simp [hw, Eff.emit, Eff.bind, Eff.fail, Eff.pure]

/-- C4 (amended): after a successful validation, read and parse, a render step
starts only if its own flag is set, and at least one starts when one of tree,
replicant, json is set.  The modes are not exclusive: the sanity checks accept
any number of these flags, and when the tree step completes and the generator,
if called, returns a text, the selected steps run one after the other in the
order tree, replicant, JSON: the tree lines, then the generator call and the
printed text, then the write of the JSON text, each present exactly when its
flag is set, and then the exit, with status 0 unless the write fails. -/
theorem renderers_follow_flags (env : Env) (p : Program) (buffer : String) (revman : Revman)
    (warnings : List String) (h : p.args.length = 1)
    (hm : p.tree = true ∨ p.replicant = true ∨ p.json = true ∨ p.verify = true)
    (hread : env.readFile (arg0 p) = Callback.value buffer)
    (hparse : env.parse buffer (p.verbose || p.verify) false = Callback.value (revman, warnings)) :
    sanityChecks p = Eff.pure () ∧
      (∀ r, Event.render r ∈ (main env p).trace → flagOf p r = true) ∧
      ((p.tree = true ∨ p.replicant = true ∨ p.json = true) →
        ∃ r, Event.render r ∈ (main env p).trace) ∧
      ((treeStep env p revman).res = Res.ok () →
        ∀ text, (p.replicant = true → env.generate revman p.grammar = Callback.value text) →
        (main env p).trace
          = [Event.readFile (arg0 p), Event.parse buffer (p.verbose || p.verify) false]
            ++ (reportStep env p warnings).trace
            ++ (if p.tree then
                  Event.render Renderer.tree :: (renderTree env.chalk p revman).trace
                else [])
            ++ (if p.replicant then
                  [Event.render Renderer.replicant, Event.generate revman p.grammar,
                    Event.log [text]]
                else [])
            ++ (if p.json then
                  [Event.render Renderer.json,
                    Event.write (if p.pretty then env.inspect revman else env.stringify revman)]
                else [])
            ++ (match (if p.json then
                    env.write (if p.pretty then env.inspect revman else env.stringify revman)
                  else none) with
                | some err => [Event.log [env.chalk.red "Error", err.text], Event.exit 1]
                | none => [Event.exit 0])) := by
  refine ⟨sanityChecks_of_mode p h hm, ?_, ?_, ?_⟩
  · intro r hr
    exact renderSteps_render env p revman r
      (render_mem_renderSteps_of_mem_main env p buffer revman warnings h hm hread hparse r hr)
  · intro hf
    obtain ⟨r, hr⟩ := renderSteps_some_mark env p revman hf
    exact ⟨r, mem_main_of_mem_renderSteps env p buffer revman warnings h hm hread hparse _ hr⟩
  · intro hT text hgen
    obtain ⟨htr, hres⟩ := renderSteps_in_order env p revman text hT hgen
    rw [main_of_parsed env p buffer revman warnings h hm hread hparse, hres, htr, reportStep_eq]
    cases (if p.json = true then
        env.write (if p.pretty = true then env.inspect revman else env.stringify revman)
      else none) <;> simp

/-- With tree, replicant and json set and every collaborator succeeding, the run
holds the tree lines, then the generator call and its text, then the write of
the JSON text, and exits with status 0. -/
theorem renderers_follow_flags_witness :
    (main (okEnv sampleDoc []) allRenderersProgram).trace
      = [Event.readFile "review.rm5", Event.parse "<xml/>" false false,
          Event.render Renderer.tree, Event.log ["* Drug vs placebo"],
          Event.log ["  -", "1.01", "Mortality", "(2 studies)"],
          Event.render Renderer.replicant, Event.generate sampleDoc "hal-en.html",
          Event.log ["Abstract."], Event.render Renderer.json, Event.write "json",
          Event.exit 0] :=
  (renderers_follow_flags (okEnv sampleDoc []) allRenderersProgram "<xml/>" sampleDoc []
    (by decide) (by decide) rfl rfl).2.2.2 (by decide) "Abstract." (fun _ => rfl)

/-- C4 (as stated) fails: with tree and json both set and verify unset, the
sanity checks accept the invocation, and the tree renderer and the JSON
renderer both run. -/
theorem two_renderers_run :
    treeJsonProgram.verify = false ∧
      sanityChecks treeJsonProgram = Eff.pure () ∧
      main (okEnv sampleDoc []) treeJsonProgram
        = ⟨[Event.readFile "review.rm5", Event.parse "<xml/>" false false,
              Event.render Renderer.tree, Event.log ["* Drug vs placebo"],
              Event.log ["  -", "1.01", "Mortality", "(2 studies)"],
              Event.render Renderer.json, Event.write "json", Event.exit 0],
            Status.exited 0⟩ := by
  decide

/-! ## Verify -/

/-- With the verify flag set and none of tree, replicant, json, after a
successful validation, read and parse no render step starts: the run is the
read, the parse, the validity report and the exit with status 0. -/
theorem verify_alone_prints_report (env : Env) (p : Program) (buffer : String)
    (revman : Revman) (warnings : List String) (h : p.args.length = 1)
    (hv : p.verify = true) (ht : p.tree = false) (hr : p.replicant = false)
    (hj : p.json = false)
    (hread : env.readFile (arg0 p) = Callback.value buffer)
    (hparse : env.parse buffer (p.verbose || p.verify) false = Callback.value (revman, warnings)) :
    main env p
        = ⟨[Event.readFile (arg0 p), Event.parse buffer true false]
              ++ (reportStep env p warnings).trace ++ [Event.exit 0], Status.exited 0⟩ ∧
      ∀ r, Event.render r ∉ (main env p).trace := by
  have hm : p.tree = true ∨ p.replicant = true ∨ p.json = true ∨ p.verify = true :=
    Or.inr (Or.inr (Or.inr hv))
  have hrs : renderSteps env p revman = ⟨[], Res.ok ()⟩ := by
    unfold renderSteps
    rw [treeStep_of_not_tree env p revman ht, replicantStep_of_not env p revman hr,
      jsonStep_of_not env p revman hj]
    rfl
  have hmain : main env p
      = ⟨[Event.readFile (arg0 p), Event.parse buffer true false]
            ++ (reportStep env p warnings).trace ++ [Event.exit 0], Status.exited 0⟩ := by
    rw [main_of_parsed env p buffer revman warnings h hm hread hparse, hrs, reportStep_eq]
    simp [hv]
  refine ⟨hmain, ?_⟩
  intro r hmem
  have := renderSteps_render env p revman r
    (render_mem_renderSteps_of_mem_main env p buffer revman warnings h hm hread hparse r hmem)
  cases r <;> simp [flagOf, ht, hr, hj] at this

/-- With verify alone and one warning the run is the read, the parse, the two report
lines and the exit with status 0. -/
theorem verify_alone_prints_report_witness :
    main (okEnv sampleDoc ["w1"]) verifyProgram
      = ⟨[Event.readFile "review.rm5", Event.parse "<xml/>" true false,
            Event.log ["review.rm5", "-", "RevMan file is valid", "(1 warnings):"],
            Event.log ["\t-", "w1"], Event.exit 0], Status.exited 0⟩ :=
  (verify_alone_prints_report (okEnv sampleDoc ["w1"]) verifyProgram "<xml/>" sampleDoc ["w1"]
    (by decide) (by decide) (by decide) (by decide) (by decide) rfl rfl).1

/-- C5 (the code at a failing input): with verify and tree both set no render
step tests the verify flag, so the tree renderer runs and the standard output
holds the tree lines after the validity report, although the text of the
verify option says that no output is generated. -/
theorem verify_with_tree_renders :
    verifyTreeProgram.verify = true ∧
      main (okEnv sampleDoc []) verifyTreeProgram
        = ⟨[Event.readFile "review.rm5", Event.parse "<xml/>" true false,
              Event.log ["review.rm5", "-", "RevMan file is valid"],
              Event.render Renderer.tree, Event.log ["* Drug vs placebo"],
              Event.log ["  -", "1.01", "Mortality", "(2 studies)"], Event.exit 0],
            Status.exited 0⟩ ∧
      stdout plainSpec (main (okEnv sampleDoc []) verifyTreeProgram).trace
        = ["review.rm5 - RevMan file is valid", "* Drug vs placebo",
            "  - 1.01 Mortality (2 studies)"] := by
  decide

/-! ## The tree renderer -/

/-- C7 (amended): the outcome line is the first thing the outcome callback
prints; its last field is the study count `(k studies)` exactly when the
outcome carries a study list, `k` being the length of that list, whether or not
the outcome has subgroups, and the empty text when it carries none. -/
theorem outcome_line_study_count (c : Chalk) (p : Program) (comparisonIndex : Nat)
    (outcome : Outcome) (outcomeIndex : Nat) :
    (∃ rest, (outcomeBody c p comparisonIndex outcome outcomeIndex).trace
        = Event.log ["  -", c.grey (outcomePfx comparisonIndex outcomeIndex), outcome.name,
            c.grey (outcomeStudyCount outcome)] :: rest) ∧
      (∀ study, outcome.study = some study →
        outcomeStudyCount outcome = "(" ++ toString study.length ++ " studies)") ∧
      (outcome.study = none → outcomeStudyCount outcome = "") := by
  refine ⟨?_, ?_, ?_⟩
  · unfold outcomeBody
    simp only [consoleLog, Eff.emit, Eff.bind_mk_ok, outcomeArgs]
    exact ⟨_, rfl⟩
  · intro study hs
    simp [outcomeStudyCount, hs]
  · intro hs
    simp [outcomeStudyCount, hs]

/-- C7 (as stated) fails: an outcome that has subgroups and a study list gets
the study count on its line. -/
theorem study_count_printed_with_subgroups :
    (∃ o, studiesAndSubgroupsDoc.analysesAndData.comparison.map Comparison.outcome = [[o]] ∧
        o.subgroup ≠ none ∧ o.study = some [⟨"STD-A"⟩]) ∧
      main (okEnv studiesAndSubgroupsDoc []) treeProgram
        = ⟨[Event.readFile "review.rm5", Event.parse "<xml/>" false false,
              Event.render Renderer.tree, Event.log ["* Drug vs placebo"],
              Event.log ["  -", "1.01", "Mortality", "(1 studies)"],
              Event.log ["    -", "1.01.01", "Adults", "(subgroup; 1 studies)"],
              Event.exit 0],
            Status.exited 0⟩ :=
  ⟨⟨_, rfl, by decide, rfl⟩, by decide⟩

/-- C8 (the code at a failing input): the second subgroup carries no study
list; reading `subgroup.study.length` raises a `TypeError` before its line is
printed, so the run stops after the line of the first subgroup and never
reaches the end handler. -/
theorem subgroup_without_studies_throws :
    main (okEnv mixedSubgroupsDoc []) treeProgram
      = ⟨[Event.readFile "review.rm5", Event.parse "<xml/>" false false,
            Event.render Renderer.tree, Event.log ["* Drug vs placebo"],
            Event.log ["  -", "1.01", "Mortality", ""],
            Event.log ["    -", "1.01.01", "Adults", "(subgroup; 2 studies)"]],
          Status.uncaught JsException.typeError⟩ := by
  decide

/-- C6 (the code at a failing input): the document has two comparisons, but the
exception raised in the first one ends the rendering after one header line; the
second header and the label `2.01` are never printed. -/
theorem headers_cut_short_by_throw :
    twoComparisonsDoc.analysesAndData.comparison.length = 2 ∧
      main (okEnv twoComparisonsDoc []) treeProgram
        = ⟨[Event.readFile "review.rm5", Event.parse "<xml/>" false false,
              Event.render Renderer.tree, Event.log ["* Drug vs placebo"],
              Event.log ["  -", "1.01", "Mortality", ""]],
            Status.uncaught JsException.typeError⟩ := by
  decide

/-- C3 (the code at a failing input): the read, the parser, the generator and
the write all succeed, yet the run ends with the exception raised by the tree
step: the end handler is not reached, so there is neither an exit with status 0
nor an error line, and the replicant and JSON steps do not run. -/
theorem throw_bypasses_end_handler :
    main (okEnv bareSubgroupDoc []) allRenderersProgram
      = ⟨[Event.readFile "review.rm5", Event.parse "<xml/>" false false,
            Event.render Renderer.tree, Event.log ["* Drug vs placebo"],
            Event.log ["  -", "1.01", "Mortality", ""]],
          Status.uncaught JsException.typeError⟩ := by
  decide

/-! ## Documents whose subgroups all carry a study list -/

theorem forEachFrom_ok {α : Type} (f : α → Nat → Eff Unit) (xs : List α) (k : Nat)
    (hok : ∀ x ∈ xs, ∀ i, (f x i).res = Res.ok ()) :
    (forEachFrom f xs k).res = Res.ok () := by
  induction xs generalizing k with
  | nil => rfl
  | cons x xs ih =>
    rw [forEachFrom, Eff.bind_ok _ _ () (hok x (List.mem_cons_self _ _) k)]
    exact ih (k + 1) (fun y hy i => hok y (List.mem_cons_of_mem _ hy) i)

/-- When every callback ends normally, the events of the callback for the
element at position `n` are events of the loop. -/
theorem forEachFrom_mem {α : Type} (f : α → Nat → Eff Unit) (xs : List α) (k n : Nat) (x : α)
    (hok : ∀ y ∈ xs, ∀ i, (f y i).res = Res.ok ()) (hx : xs[n]? = some x) (e : Event)
    (he : e ∈ (f x (k + n)).trace) : e ∈ (forEachFrom f xs k).trace := by
  induction xs generalizing k n with
  | nil => simp at hx
  | cons y ys ih =>
    rw [forEachFrom, Eff.bind_ok _ _ () (hok y (List.mem_cons_self _ _) k)]
    simp only [List.mem_append]
    cases n with
    | zero =>
      simp only [List.getElem?_cons_zero, Option.some.injEq] at hx
      subst hx
      exact Or.inl (by simpa using he)
    | succ n =>
      simp only [List.getElem?_cons_succ] at hx
      refine Or.inr (ih (k + 1) n (fun z hz i => hok z (List.mem_cons_of_mem _ hz) i) hx ?_)
      have : k + 1 + n = k + (n + 1) := by omega
      rw [this]; exact he

theorem studyLoop_ok (c : Chalk) (dash pfx : String) (study : List Study) :
    (studyLoop c dash pfx study).res = Res.ok () :=
  forEachFrom_ok _ _ _ (fun _ _ _ => rfl)

theorem subgroupBody_ok (c : Chalk) (p : Program) (pfx : String) (subgroup : Subgroup)
    (h : subgroup.study.isSome = true) : (subgroupBody c p pfx subgroup).res = Res.ok () := by
  obtain ⟨study, hs⟩ := Option.isSome_iff_exists.mp h
  unfold subgroupBody
  rw [hs]
  simp only [Eff.pure, Eff.bind_mk_ok, consoleLog, Eff.emit]
  cases p.showStudies
  · rfl
  · exact studyLoop_ok _ _ _ _

theorem outcomeBody_ok (c : Chalk) (p : Program) (comparisonIndex : Nat) (outcome : Outcome)
    (outcomeIndex : Nat) (h : outcome.subgroupsHaveStudies = true) :
    (outcomeBody c p comparisonIndex outcome outcomeIndex).res = Res.ok () := by
  unfold outcomeBody
  simp only [consoleLog, Eff.emit, Eff.bind_mk_ok]
  unfold Outcome.subgroupsHaveStudies at h
  cases hsg : outcome.subgroup with
  | some subgroup =>
    rw [hsg] at h
    simp only [List.all_eq_true] at h
    exact forEachFrom_ok _ _ _ (fun sg hsgm _ => subgroupBody_ok _ _ _ _ (h sg hsgm))
  | none =>
    cases p.showStudies <;> cases outcome.study
    · rfl
    · rfl
    · rfl
    · exact studyLoop_ok _ _ _ _

theorem comparisonBody_ok (c : Chalk) (p : Program) (count : Nat) (comparison : Comparison)
    (comparisonIndex : Nat)
    (h : comparison.outcome.all Outcome.subgroupsHaveStudies = true) :
    (comparisonBody c p count comparison comparisonIndex).res = Res.ok () := by
  unfold comparisonBody
  simp only [consoleLog, Eff.emit, Eff.bind_mk_ok]
  simp only [List.all_eq_true] at h
  have hloop : (forEach comparison.outcome (outcomeBody c p comparisonIndex)).res = Res.ok () :=
    forEachFrom_ok _ _ _ (fun o ho i => outcomeBody_ok _ _ _ _ i (h o ho))
  rw [Eff.bind_ok _ _ () hloop]
  split <;> rfl

/-- The tree renderer completes on every document whose subgroups all carry a
study list. -/
theorem renderTree_ok (c : Chalk) (p : Program) (revman : Revman)
    (h : revman.subgroupsHaveStudies = true) : (renderTree c p revman).res = Res.ok () := by
  unfold Revman.subgroupsHaveStudies at h
  simp only [List.all_eq_true] at h
  exact forEachFrom_ok _ _ _ (fun cmp hc i => comparisonBody_ok _ _ _ _ i (by
    simpa [List.all_eq_true] using h cmp hc))

/-! ## Zero padding -/

theorem length_toString_of_lt_ten (n : Nat) (h : n < 10) : (toString n).length = 1 := by
  interval_cases n <;> rfl

theorem two_le_length_toString (n : Nat) (h : 10 ≤ n) : 2 ≤ (toString n).length := by
  have hdiv : n / 10 ≠ 0 := by omega
  obtain ⟨m, rfl⟩ : ∃ m, n = m + 1 := ⟨n - 1, by omega⟩
  show 2 ≤ (Nat.repr (m + 1)).length
  simp only [Nat.repr, Nat.toDigits, String.length, List.asString, Nat.toDigitsCore, hdiv,
    if_false]
  split
  · simp
  · rw [Nat.toDigitsCore_lens_eq, Nat.toDigitsCore_lens_eq]
    omega

/-- The padding of line 72 yields the 2-digit zero-padded decimal. -/
theorem padStart_toString (n : Nat) : padStart (toString n) 2 '0' = twoDigits n := by
  unfold padStart twoDigits
  by_cases h : n < 10
  · rw [length_toString_of_lt_ten n h]
    simp [h]
  · have := two_le_length_toString n (by omega)
    simp [h]
    omega

/-! ## Header lines and labels of the tree -/

theorem studyLoop_noHeader (c : Chalk) (dash pfx : String) (study : List Study) :
    ∀ e ∈ (studyLoop c dash pfx study).trace, e.isHeader = false :=
  forEachFrom_forall _ _ (fun _ _ e he => by
    simp [consoleLog, Eff.emit] at he
    rw [he]; rfl) study 0

theorem subgroupBody_noHeader (c : Chalk) (p : Program) (pfx : String) (subgroup : Subgroup) :
    ∀ e ∈ (subgroupBody c p pfx subgroup).trace, e.isHeader = false := by
  unfold subgroupBody
  refine Eff.forall_bind _ _ _ ?_ (fun _ => Eff.forall_bind _ _ _ ?_ ?_)
  · cases subgroup.study <;> intro e he <;> simp [Eff.pure, Eff.throw] at he
  · intro e he
    simp [consoleLog, Eff.emit] at he
    rw [he]; rfl
  · intro _
    cases p.showStudies <;> cases subgroup.study
    · exact pure_forall _ _
    · exact pure_forall _ _
    · exact pure_forall _ _
    · exact studyLoop_noHeader _ _ _ _

theorem outcomeBody_noHeader (c : Chalk) (p : Program) (comparisonIndex : Nat)
    (outcome : Outcome) (outcomeIndex : Nat) :
    ∀ e ∈ (outcomeBody c p comparisonIndex outcome outcomeIndex).trace, e.isHeader = false := by
  unfold outcomeBody
  refine Eff.forall_bind _ _ _ ?_ ?_
  · intro e he
    simp [consoleLog, Eff.emit, outcomeArgs] at he
    rw [he]; rfl
  · intro _
    cases outcome.subgroup with
    | some subgroup =>
      exact forEachFrom_forall _ _ (fun _ _ => subgroupBody_noHeader _ _ _ _) subgroup 0
    | none =>
      cases p.showStudies <;> cases outcome.study
      · exact pure_forall _ _
      · exact pure_forall _ _
      · exact pure_forall _ _
      · exact studyLoop_noHeader _ _ _ _

/-- The only one-argument line a comparison prints is its header. -/
theorem comparisonBody_headers (c : Chalk) (p : Program) (count : Nat) (comparison : Comparison)
    (comparisonIndex : Nat)
    (h : comparison.outcome.all Outcome.subgroupsHaveStudies = true) :
    (comparisonBody c p count comparison comparisonIndex).trace.filter Event.isHeader
      = [Event.log (headerArgs c comparison)] := by
  have hloop : (forEach comparison.outcome (outcomeBody c p comparisonIndex)).res = Res.ok () :=
    forEachFrom_ok _ _ _ (fun o ho i => outcomeBody_ok _ _ _ _ i
      (by simpa using (List.all_eq_true.mp h) o ho))
  have hno : (forEach comparison.outcome (outcomeBody c p comparisonIndex)).trace.filter
      Event.isHeader = [] := by
    rw [List.filter_eq_nil_iff]
    intro e he
    have := forEachFrom_forall (fun e => e.isHeader = false) _
      (fun _ _ => outcomeBody_noHeader c p comparisonIndex _ _) comparison.outcome 0 e he
    simp [this]
  unfold comparisonBody
  simp only [consoleLog, Eff.emit, Eff.bind_mk_ok]
  rw [Eff.bind_ok _ _ () hloop]
  simp only [List.filter_append, hno]
  split <;> simp [List.filter, Event.isHeader, headerArgs]

theorem forEachFrom_filter_map {α : Type} (f : α → Nat → Eff Unit) (P : Event → Bool)
    (g : α → Event) (xs : List α) (k : Nat)
    (hok : ∀ x ∈ xs, ∀ i, (f x i).res = Res.ok ())
    (hg : ∀ x ∈ xs, ∀ i, (f x i).trace.filter P = [g x]) :
    (forEachFrom f xs k).trace.filter P = xs.map g := by
  induction xs generalizing k with
  | nil => rfl
  | cons x xs ih =>
    rw [forEachFrom, Eff.bind_ok _ _ () (hok x (List.mem_cons_self _ _) k)]
    simp only [List.filter_append, hg x (List.mem_cons_self _ _) k, List.map_cons,
      List.singleton_append]
    rw [ih (k + 1) (fun y hy i => hok y (List.mem_cons_of_mem _ hy) i)
      (fun y hy i => hg y (List.mem_cons_of_mem _ hy) i)]

/-- On a document whose subgroups all carry a study list the tree renderer
completes, its header lines are the headers of the comparisons in document
order, one each, and the outcome at position `j` of the comparison at position
`i` gets a line whose label is the decimal of `i+1`, a dot and the 2-digit
zero-padded decimal of `j+1`. -/
theorem renderTree_headers_and_labels (c : Chalk) (p : Program) (revman : Revman)
    (h : revman.subgroupsHaveStudies = true) :
    (renderTree c p revman).res = Res.ok () ∧
      (renderTree c p revman).trace.filter Event.isHeader
        = revman.analysesAndData.comparison.map (fun cmp => Event.log (headerArgs c cmp)) ∧
      ((renderTree c p revman).trace.filter Event.isHeader).length
        = revman.analysesAndData.comparison.length ∧
      ∀ i j comparison outcome, revman.analysesAndData.comparison[i]? = some comparison →
        comparison.outcome[j]? = some outcome →
        Event.log ["  -", c.grey (toString (i + 1) ++ "." ++ twoDigits (j + 1)), outcome.name,
            c.grey (outcomeStudyCount outcome)] ∈ (renderTree c p revman).trace := by
  have hall : ∀ cmp ∈ revman.analysesAndData.comparison,
      cmp.outcome.all Outcome.subgroupsHaveStudies = true := by
    unfold Revman.subgroupsHaveStudies at h
    exact fun cmp hc => (List.all_eq_true.mp h) cmp hc
  have hhead : (renderTree c p revman).trace.filter Event.isHeader
      = revman.analysesAndData.comparison.map (fun cmp => Event.log (headerArgs c cmp)) :=
    forEachFrom_filter_map _ _ _ _ 0 (fun cmp hc i => comparisonBody_ok _ _ _ _ i (hall cmp hc))
      (fun cmp hc i => comparisonBody_headers _ _ _ _ i (hall cmp hc))
  refine ⟨renderTree_ok c p revman h, hhead, by rw [hhead, List.length_map], ?_⟩
  intro i j comparison outcome hi hj
  have hcmp : comparison ∈ revman.analysesAndData.comparison := List.getElem?_mem hi
  refine forEachFrom_mem _ _ 0 i comparison
    (fun cmp hc k => comparisonBody_ok _ _ _ _ k (hall cmp hc)) hi _ ?_
  unfold comparisonBody
  simp only [consoleLog, Eff.emit, Eff.bind_mk_ok, List.mem_append, List.mem_cons]
  refine Or.inr (Eff.mem_bind_left _ _ _ ?_)
  refine forEachFrom_mem _ _ 0 j outcome
    (fun o ho k => outcomeBody_ok _ _ _ _ k
      (by simpa using (List.all_eq_true.mp (hall comparison hcmp)) o ho)) hj _ ?_
  unfold outcomeBody
  simp only [consoleLog, Eff.emit, Eff.bind_mk_ok, List.mem_append, List.mem_cons, outcomeArgs,
    outcomePfx, padStart_toString]
  simp

/-- On a document whose subgroups all carry a study list, every subgroup gets
its line: the label of the outcome extended by the 2-digit zero-padded declared
number of the subgroup, the name, and the count of its studies. -/
theorem renderTree_subgroup_lines (c : Chalk) (p : Program) (revman : Revman)
    (h : revman.subgroupsHaveStudies = true) (i j n : Nat) (comparison : Comparison)
    (outcome : Outcome) (subgroups : List Subgroup) (subgroup : Subgroup) (study : List Study)
    (hi : revman.analysesAndData.comparison[i]? = some comparison)
    (hj : comparison.outcome[j]? = some outcome) (hsg : outcome.subgroup = some subgroups)
    (hn : subgroups[n]? = some subgroup) (hs : subgroup.study = some study) :
    Event.log ["    -",
        c.grey (toString (i + 1) ++ "." ++ twoDigits (j + 1) ++ "." ++ twoDigits subgroup.no),
        subgroup.name, c.grey ("(subgroup; " ++ toString study.length ++ " studies)")]
      ∈ (renderTree c p revman).trace := by
  have hall : ∀ cmp ∈ revman.analysesAndData.comparison,
      cmp.outcome.all Outcome.subgroupsHaveStudies = true := by
    unfold Revman.subgroupsHaveStudies at h
    exact fun cmp hc => (List.all_eq_true.mp h) cmp hc
  have hcmp : comparison ∈ revman.analysesAndData.comparison := List.getElem?_mem hi
  have hout : outcome.subgroupsHaveStudies = true := by
    simpa using (List.all_eq_true.mp (hall comparison hcmp)) outcome (List.getElem?_mem hj)
  have hsgs : ∀ sg ∈ subgroups, sg.study.isSome = true := by
    unfold Outcome.subgroupsHaveStudies at hout
    rw [hsg] at hout
    exact fun sg hm => (List.all_eq_true.mp hout) sg hm
  refine forEachFrom_mem _ _ 0 i comparison
    (fun cmp hc k => comparisonBody_ok _ _ _ _ k (hall cmp hc)) hi _ ?_
  unfold comparisonBody
  simp only [consoleLog, Eff.emit, Eff.bind_mk_ok, List.mem_append, List.mem_cons]
  refine Or.inr (Eff.mem_bind_left _ _ _ ?_)
  refine forEachFrom_mem _ _ 0 j outcome
    (fun o ho k => outcomeBody_ok _ _ _ _ k
      (by simpa using (List.all_eq_true.mp (hall comparison hcmp)) o ho)) hj _ ?_
  unfold outcomeBody
  simp only [consoleLog, Eff.emit, Eff.bind_mk_ok, List.mem_append, List.mem_cons, hsg]
  refine Or.inr ?_
  refine forEachFrom_mem _ _ 0 n subgroup
    (fun sg hm _ => subgroupBody_ok _ _ _ _ (hsgs sg hm)) hn _ ?_
  unfold subgroupBody
  rw [hs]
  simp only [Eff.pure, consoleLog, Eff.emit, Eff.bind_mk_ok, List.mem_append, List.mem_cons,
    outcomePfx, padStart_toString]
  simp

/-! ## Failures before the render steps -/

/-- A failing read ends the run with the read call, the error line and the exit
with status 1: the parser is not called. -/
theorem main_of_read_error (env : Env) (p : Program) (err : JsError) (h : p.args.length = 1)
    (hm : p.tree = true ∨ p.replicant = true ∨ p.json = true ∨ p.verify = true)
    (hread : env.readFile (arg0 p) = Callback.err err) :
    main env p
      = ⟨[Event.readFile (arg0 p), Event.log [env.chalk.red "Error", err.text], Event.exit 1],
          Status.exited 1⟩ := by
  simp [main, chain, sanityChecks_of_mode p h hm, readStep, hread, Eff.pure, Eff.emit,
    Eff.bind, Eff.fail]

/-- A failing parse ends the run with the read and parse calls, the error line
and the exit with status 1: nothing is reported or rendered. -/
theorem main_of_parse_error (env : Env) (p : Program) (buffer : String) (err : JsError)
    (h : p.args.length = 1)
    (hm : p.tree = true ∨ p.replicant = true ∨ p.json = true ∨ p.verify = true)
    (hread : env.readFile (arg0 p) = Callback.value buffer)
    (hparse : env.parse buffer (p.verbose || p.verify) false = Callback.err err) :
    main env p
      = ⟨[Event.readFile (arg0 p), Event.parse buffer (p.verbose || p.verify) false,
            Event.log [env.chalk.red "Error", err.text], Event.exit 1],
          Status.exited 1⟩ := by
  simp [main, chain, sanityChecks_of_mode p h hm, readStep, parseStep, hread, hparse, Eff.pure,
    Eff.emit, Eff.bind, Eff.fail]

theorem replicantStep_not_thrown (env : Env) (p : Program) (revman : Revman)
    (e : JsException) : (replicantStep env p revman).res ≠ Res.thrown e := by
  cases hr : p.replicant with
  | false => rw [replicantStep_of_not env p revman hr]; simp
  | true =>
    cases hg : env.generate revman p.grammar with
    | err x => rw [replicantStep_of_err env p revman x hr hg]; simp
    | value t => rw [replicantStep_of_value env p revman t hr hg]; simp

theorem jsonStep_not_thrown (env : Env) (p : Program) (revman : Revman) (e : JsException) :
    (jsonStep env p revman).res ≠ Res.thrown e := by
  unfold jsonStep
  cases p.json <;>
    cases hw : env.write (if p.pretty = true then env.inspect revman else env.stringify revman)
      <;> simp [hw, Eff.emit, Eff.bind, Eff.fail, Eff.pure]

theorem treeStep_ok (env : Env) (p : Program) (revman : Revman)
    (h : revman.subgroupsHaveStudies = true) : (treeStep env p revman).res = Res.ok () := by
  cases ht : p.tree with
  | false => rw [treeStep_of_not_tree env p revman ht]
  | true => rw [treeStep_of_tree env p revman ht]; exact renderTree_ok _ _ _ h

theorem renderSteps_not_thrown (env : Env) (p : Program) (revman : Revman)
    (h : revman.subgroupsHaveStudies = true) (e : JsException) :
    (renderSteps env p revman).res ≠ Res.thrown e := by
  unfold renderSteps
  rw [Eff.bind_ok _ _ () (treeStep_ok env p revman h)]
  cases hR : (replicantStep env p revman).res with
  | ok u => rw [Eff.bind_ok _ _ u hR]; exact jsonStep_not_thrown env p revman e
  | fail x => rw [Eff.bind_fail _ _ x hR]; simp
  | thrown x => exact absurd hR (replicantStep_not_thrown env p revman x)

/-- When the parser only returns documents whose subgroups all carry a study
list, no exception leaves the chain. -/
theorem chain_not_thrown (env : Env) (p : Program)
    (hdoc : ∀ buffer revman warnings,
      env.parse buffer (p.verbose || p.verify) false = Callback.value (revman, warnings) →
      revman.subgroupsHaveStudies = true)
    (e : JsException) : (chain env p).res ≠ Res.thrown e := by
  by_cases h : p.args.length = 1
  · by_cases hm : p.tree = true ∨ p.replicant = true ∨ p.json = true ∨ p.verify = true
    · cases hread : env.readFile (arg0 p) with
      | err x =>
        simp [chain, sanityChecks_of_mode p h hm, readStep, hread, Eff.pure, Eff.emit,
          Eff.bind, Eff.fail]
      | value buffer =>
        cases hparse : env.parse buffer (p.verbose || p.verify) false with
        | err x =>
          simp [chain, sanityChecks_of_mode p h hm, readStep, parseStep, hread, hparse,
            Eff.pure, Eff.emit, Eff.bind, Eff.fail]
        | value r =>
          obtain ⟨revman, warnings⟩ := r
          rw [chain_of_parsed env p buffer revman warnings h hm hread hparse, afterParse_eq]
          exact renderSteps_not_thrown env p revman (hdoc buffer revman warnings hparse) e
    · have hno : p.tree = false ∧ p.replicant = false ∧ p.json = false ∧ p.verify = false := by
        simp only [not_or, Bool.not_eq_true] at hm
        exact hm
      simp [chain, sanityChecks_of_no_mode p h hno.1 hno.2.1 hno.2.2.1 hno.2.2.2, Eff.fail,
        Eff.bind]
  · simp [chain, sanityChecks_of_length_ne p h, Eff.fail, Eff.bind]

/-- When the parser only returns documents whose subgroups all carry a study
list, the run exits with status 0 exactly when no step reported an error, and
otherwise exits with status 1 after the error line that carries the error of
the failing step, the last step that ran. -/
theorem exit_status_of_complete_documents (env : Env) (p : Program)
    (hdoc : ∀ buffer revman warnings,
      env.parse buffer (p.verbose || p.verify) false = Callback.value (revman, warnings) →
      revman.subgroupsHaveStudies = true) :
    ((main env p).status = Status.exited 0 ↔ (chain env p).res = Res.ok ()) ∧
      (((chain env p).res = Res.ok () ∧
          main env p = ⟨(chain env p).trace ++ [Event.exit 0], Status.exited 0⟩) ∨
        ∃ err, (chain env p).res = Res.fail err ∧
          main env p
            = ⟨(chain env p).trace ++ [Event.log [env.chalk.red "Error", err.text],
                  Event.exit 1], Status.exited 1⟩) := by
  cases hres : (chain env p).res with
  | ok u =>
    exact ⟨by rw [main_of_ok env p hres]; simp, Or.inl ⟨rfl, main_of_ok env p hres⟩⟩
  | fail err =>
    refine ⟨?_, Or.inr ⟨err, rfl, main_of_fail env p err hres⟩⟩
    rw [main_of_fail env p err hres]
    simp
  | thrown e => exact absurd hres (chain_not_thrown env p hdoc e)

/-! ## The printed validity report -/

theorem formatGo_of_no_percent (spec : Char → Option (String → String)) (cs : List Char)
    (args : List String) (h : '%' ∉ cs) : formatGo spec cs args = (cs, args) := by
  induction cs with
  | nil => rfl
  | cons ch rest ih =>
    have hch : ch ≠ '%' := fun hc => h (by simp [hc])
    have hrest : '%' ∉ rest := fun hc => h (List.mem_cons_of_mem _ hc)
    unfold formatGo
    simp [hch, ih hrest]

/-- A first argument without a percent sign is printed as it is, followed by the
other arguments, each after one space. -/
theorem format_of_no_percent (spec : Char → Option (String → String)) (f a : String)
    (args : List String) (h : '%' ∉ f.data) :
    format spec (f :: a :: args) = (a :: args).foldl (fun str x => str ++ " " ++ x) f := by
  simp [format, formatGo_of_no_percent spec f.data (a :: args) h]

theorem stdout_warning_lines (spec : Char → Option (String → String)) (warnings : List String) :
    stdout spec (warnings.map (fun warning => Event.log ["\t-", warning]))
      = warnings.map (fun warning => "\t-" ++ " " ++ warning) := by
  induction warnings with
  | nil => rfl
  | cons w ws ih =>
    simp only [List.map_cons, stdout, ih]
    rw [format_of_no_percent spec "\t-" w [] (by decide)]
    rfl

/-- For a file path without a percent sign the report step prints what the
specification says: with warnings, the header made of the path, the success
marker and the count, then one line per warning in the order of the list; with
no warning, the path and the success marker; nothing when neither verify nor
verbose is set. -/
theorem validity_report_printed (spec : Char → Option (String → String)) (env : Env)
    (p : Program) (warnings : List String) (hp : '%' ∉ (arg0 p).data) :
    ((p.verify = true ∨ p.verbose = true) → warnings.length ≥ 1 →
        stdout spec (reportStep env p warnings).trace
          = (arg0 p ++ " " ++ "-" ++ " " ++ env.chalk.green "RevMan file is valid" ++ " "
                ++ ("(" ++ env.chalk.red (toString warnings.length ++ " warnings") ++ "):"))
              :: warnings.map (fun warning => "\t-" ++ " " ++ warning)) ∧
      ((p.verify = true ∨ p.verbose = true) → warnings.length = 0 →
        stdout spec (reportStep env p warnings).trace
          = [arg0 p ++ " " ++ "-" ++ " " ++ env.chalk.green "RevMan file is valid"]) ∧
      (p.verify = false → p.verbose = false →
        stdout spec (reportStep env p warnings).trace = []) := by
  refine ⟨?_, ?_, ?_⟩
  · intro hv hn
    have hv2 : (p.verify || p.verbose) = true := by simpa using hv
    rw [reportStep_eq]
    simp only [validityReport, hv2, hn, if_true, stdout, stdout_warning_lines]
    rw [format_of_no_percent spec _ _ _ hp]
    rfl
  · intro hv hn
    have hv2 : (p.verify || p.verbose) = true := by simpa using hv
    rw [reportStep_eq]
    have hn2 : ¬ warnings.length ≥ 1 := by omega
    simp only [validityReport, hv2, hn2, if_true, if_false, stdout]
    rw [format_of_no_percent spec _ _ _ hp]
    rfl
  · intro hv hb
    rw [reportStep_eq]
    simp [validityReport, hv, hb, stdout]

/-- C9 (the code at a failing input): `console.log` takes its first argument,
here the file path, as a format string.  For the file `a%sb.rm5` the specifier
consumes the dash, so the printed header does not hold the file path; for a
path made of three specifiers the success marker and the count are consumed
too.  The warning lines are printed in the order of the list. -/
theorem report_header_formats_path :
    main (okEnv sampleDoc ["first", "second"]) percentPathProgram
        = ⟨[Event.readFile "a%sb.rm5", Event.parse "<xml/>" true false,
              Event.log ["a%sb.rm5", "-", "RevMan file is valid", "(2 warnings):"],
              Event.log ["\t-", "first"], Event.log ["\t-", "second"], Event.exit 0],
            Status.exited 0⟩ ∧
      stdout plainSpec (main (okEnv sampleDoc ["first", "second"]) percentPathProgram).trace
        = ["a-b.rm5 RevMan file is valid (2 warnings):", "\t- first", "\t- second"] ∧
      format plainSpec ["%s%s%s.rm5", "-", "RevMan file is valid", "(2 warnings):"]
        = "-RevMan file is valid(2 warnings):.rm5" := by
  decide

end RevmanCli
